import Mathlib

/-!
Verification of the BingX trading client (`app.py`, `trading_bot.py`).

The Python source is shallowly embedded: pure helpers become Lean
functions, the network is an explicit environment mapping each attempt
index to an outcome, process-wide mutable state (the credential map,
the caller's parameter dict) is passed and returned explicitly, and
Python floats are idealised as rationals.
-/

namespace BingX

/-! ## Bytes and 32-bit words

`hmac.new(secret, query, hashlib.sha256).hexdigest()` is embedded by a
concrete FIPS 180-4 SHA-256 and RFC 2104 HMAC over byte lists, with
bytes and 32-bit words as `Nat` reduced mod 2^8 / 2^32. -/

def w32 (n : Nat) : Nat := n % 4294967296

def rotr (n x : Nat) : Nat := w32 ((x >>> n) ||| (x <<< (32 - n)))

def shr (n x : Nat) : Nat := x >>> n

def smallSigma0 (x : Nat) : Nat := (rotr 7 x) ^^^ (rotr 18 x) ^^^ (shr 3 x)

def smallSigma1 (x : Nat) : Nat := (rotr 17 x) ^^^ (rotr 19 x) ^^^ (shr 10 x)

def bigSigma0 (x : Nat) : Nat := (rotr 2 x) ^^^ (rotr 13 x) ^^^ (rotr 22 x)

def bigSigma1 (x : Nat) : Nat := (rotr 6 x) ^^^ (rotr 11 x) ^^^ (rotr 25 x)

def chFn (x y z : Nat) : Nat := (x &&& y) ^^^ ((x ^^^ 0xFFFFFFFF) &&& z)

def majFn (x y z : Nat) : Nat := (x &&& y) ^^^ (x &&& z) ^^^ (y &&& z)

def sha256K : List Nat :=
  [1116352408, 1899447441, 3049323471, 3921009573, 961987163, 1508970993,
   2453635748, 2870763221, 3624381080, 310598401, 607225278, 1426881987,
   1925078388, 2162078206, 2614888103, 3248222580, 3835390401, 4022224774,
   264347078, 604807628, 770255983, 1249150122, 1555081692, 1996064986,
   2554220882, 2821834349, 2952996808, 3210313671, 3336571891, 3584528711,
   113926993, 338241895, 666307205, 773529912, 1294757372, 1396182291,
   1695183700, 1986661051, 2177026350, 2456956037, 2730485921, 2820302411,
   3259730800, 3345764771, 3516065817, 3600352804, 4094571909, 275423344,
   430227734, 506948616, 659060556, 883997877, 958139571, 1322822218,
   1537002063, 1747873779, 1955562222, 2024104815, 2227730452, 2361852424,
   2428436474, 2756734187, 3204031479, 3329325298]

structure Hash8 where
  a : Nat
  b : Nat
  c : Nat
  d : Nat
  e : Nat
  f : Nat
  g : Nat
  h : Nat
deriving DecidableEq

def initH : Hash8 :=
  ⟨1779033703, 3144134277, 1013904242, 2773480762, 1359893119, 2600822924, 528734635, 1541459225⟩

def roundStep (s : Hash8) (kw : Nat × Nat) : Hash8 :=
  let t1 := w32 (s.h + bigSigma1 s.e + chFn s.e s.f s.g + kw.1 + kw.2)
  let t2 := w32 (bigSigma0 s.a + majFn s.a s.b s.c)
  ⟨w32 (t1 + t2), s.a, s.b, s.c, w32 (s.d + t1), s.e, s.f, s.g⟩

def scheduleStep (w : List Nat) : List Nat :=
  let n := w.length
  w ++ [w32 (smallSigma1 (w.getD (n - 2) 0) + w.getD (n - 7) 0 +
             smallSigma0 (w.getD (n - 15) 0) + w.getD (n - 16) 0)]

def msgSchedule (block : List Nat) : List Nat :=
  (List.range 48).foldl (fun w _ => scheduleStep w) block

def compress (hv : Hash8) (block : List Nat) : Hash8 :=
  let w := msgSchedule block
  let s := (sha256K.zip w).foldl roundStep hv
  ⟨w32 (hv.a + s.a), w32 (hv.b + s.b), w32 (hv.c + s.c), w32 (hv.d + s.d),
   w32 (hv.e + s.e), w32 (hv.f + s.f), w32 (hv.g + s.g), w32 (hv.h + s.h)⟩

def beBytes (n x : Nat) : List Nat :=
  (List.range n).map fun i => (x >>> (8 * (n - 1 - i))) % 256

def padMessage (msg : List Nat) : List Nat :=
  let len := msg.length
  let padZeros := (119 - len % 64) % 64
  msg ++ [0x80] ++ List.replicate padZeros 0 ++ beBytes 8 (len * 8)

def bytesToWords (bytes : List Nat) : List Nat :=
  (List.range (bytes.length / 4)).map fun i =>
    bytes.getD (4 * i) 0 * 16777216 + bytes.getD (4 * i + 1) 0 * 65536 +
    bytes.getD (4 * i + 2) 0 * 256 + bytes.getD (4 * i + 3) 0

def blocksOf (bytes : List Nat) : List (List Nat) :=
  (List.range (bytes.length / 64)).map fun i => ((bytes.drop (64 * i)).take 64)

def sha256 (msg : List Nat) : List Nat :=
  let final := (blocksOf (padMessage msg)).foldl (fun st blk => compress st (bytesToWords blk)) initH
  [final.a, final.b, final.c, final.d, final.e, final.f, final.g, final.h].flatMap (beBytes 4)

def hmacSha256 (key msg : List Nat) : List Nat :=
  let k0 := if key.length > 64 then sha256 key else key
  let k1 := k0 ++ List.replicate (64 - k0.length) 0
  let ipadKey := k1.map fun b => b ^^^ 0x36
  let opadKey := k1.map fun b => b ^^^ 0x5c
  sha256 (opadKey ++ sha256 (ipadKey ++ msg))

def hexChar (n : Nat) : Char := "0123456789abcdef".toList.getD n 'x'

def hexDigest (bytes : List Nat) : String :=
  String.mk (bytes.flatMap fun b => [hexChar (b / 16), hexChar (b % 16)])

/-- UTF-8 encoding of one character, as Python `str.encode()` produces. -/
def utf8EncodeChar (c : Char) : List Nat :=
  let n := c.toNat
  if n < 0x80 then [n]
  else if n < 0x800 then [0xC0 ||| (n >>> 6), 0x80 ||| (n &&& 0x3F)]
  else if n < 0x10000 then
    [0xE0 ||| (n >>> 12), 0x80 ||| ((n >>> 6) &&& 0x3F), 0x80 ||| (n &&& 0x3F)]
  else
    [0xF0 ||| (n >>> 18), 0x80 ||| ((n >>> 12) &&& 0x3F),
     0x80 ||| ((n >>> 6) &&& 0x3F), 0x80 ||| (n &&& 0x3F)]

def utf8Encode (s : String) : List Nat := s.toList.flatMap utf8EncodeChar

/-! ## Parameter dictionaries

A Python `dict` of string parameters is embedded as an association list
with unique keys kept in insertion order; `dictGet` is `d[k]` / `d.get(k)`
and `dictInsert` is `d[k] = v` (replace in place, or append a new key). -/

def dictGet (p : List (String × String)) (k : String) : Option String :=
  match p with
  | [] => none
  | (k', v) :: rest => if k' = k then some v else dictGet rest k

def dictInsert (p : List (String × String)) (k v : String) : List (String × String) :=
  match p with
  | [] => [(k, v)]
  | (k', v') :: rest => if k' = k then (k', v) :: rest else (k', v') :: dictInsert rest k v

/-! ## Signed Request Builder (`sign_request`, identical in both files) -/

/-- `sorted(params)` in Python: the keys of the dict, sorted ascending by
the lexicographic code-point order on strings. -/
def sortedKeys (params : List (String × String)) : List String :=
  (params.map Prod.fst).mergeSort fun a b => a ≤ b

/-- Embedding of `sign_request` (`app.py` lines 87-91, `trading_bot.py`
lines 50-54): `query = '&'.join([f"{k}={params[k]}" for k in sorted(params)])`
followed by `hmac.new(secret.encode(), query.encode(), hashlib.sha256).hexdigest()`. -/
def sign_request (params : List (String × String)) (secret : String) : String :=
  let query := String.intercalate "&"
    ((sortedKeys params).map fun k => k ++ "=" ++ ((dictGet params k).getD ""))
  hexDigest (hmacSha256 (utf8Encode secret) (utf8Encode query))

/-- The canonical query string described by the specification: `key=value`
pairs joined by `&` in lexicographically sorted key order. -/
def canonicalQuery (params : List (String × String)) : String :=
  String.intercalate "&"
    ((sortedKeys params).map fun k => k ++ "=" ++ ((dictGet params k).getD ""))

/-! ## Resilient API Client

The network is an environment `Nat → AttemptOutcome α` giving, for each
attempt index, whether `requests.get`/`requests.post` raises
`requests.exceptions.Timeout`, raises another exception, or returns a
parsed body.  The client's observable effects — the final result, how
many attempts were made, how many `time.sleep(1)` delays happened, and
the final contents of the caller's parameter dict — are returned
explicitly. -/

structure Credential where
  api_key : String
  api_secret : String
deriving DecidableEq

inductive AttemptOutcome (α : Type) where
  | timeout
  | exn (msg : String)
  | ok (resp : α)

/-- Typed errors of `app.py`'s `safe_api_call`: HTTPException 401
(unauthenticated), 504 (`API Timeout`), 502 (`Erreur API: {e}`). -/
inductive ApiError where
  | unauthenticated
  | apiTimeout
  | transportFailure (msg : String)
deriving DecidableEq

def MAX_RETRIES : Nat := 3

/-- The `for attempt in range(MAX_RETRIES)` loop of `app.py` lines
106-140: on success return the body, on an exception sleep and retry
unless this was the last attempt, in which case raise the typed error.
Returns (result, attempts made, sleeps performed); `attempt + remaining`
is always `MAX_RETRIES`, and the `.ok none` base case is the dead
`return None` after the loop. -/
def attemptLoop {α : Type} (env : Nat → AttemptOutcome α) :
    Nat → Nat → Nat → Except ApiError (Option α) × Nat × Nat
  | attempt, 0, sleeps => (.ok none, attempt, sleeps)
  | attempt, remaining + 1, sleeps =>
    match env attempt with
    | .ok resp => (.ok (some resp), attempt + 1, sleeps)
    | .timeout =>
      if remaining = 0 then (.error .apiTimeout, attempt + 1, sleeps)
      else attemptLoop env (attempt + 1) remaining (sleeps + 1)
    | .exn m =>
      if remaining = 0 then (.error (.transportFailure ("Erreur API: " ++ m)), attempt + 1, sleeps)
      else attemptLoop env (attempt + 1) remaining (sleeps + 1)

structure CallResult (α : Type) where
  result : Except ApiError (Option α)
  calls : Nat
  sleeps : Nat
  params : List (String × String)

/-- Embedding of `app.py`'s `safe_api_call` (lines 93-140): reject
missing credentials with 401 before anything else, otherwise inject
`timestamp`, sign over all parameters including it, append `signature`,
and run the retry loop. -/
def safe_api_call {α : Type} (cred : Credential) (now : Nat)
    (env : Nat → AttemptOutcome α) (params0 : Option (List (String × String))) :
    CallResult α :=
  if cred.api_key = "" ∨ cred.api_secret = "" then
    ⟨.error .unauthenticated, 0, 0, params0.getD []⟩
  else
    let p := params0.getD []
    let p1 := dictInsert p "timestamp" (toString now)
    let p2 := dictInsert p1 "signature" (sign_request p1 cred.api_secret)
    let r := attemptLoop env 0 MAX_RETRIES 0
    ⟨r.1, r.2.1, r.2.2, p2⟩

/-- The retry loop of `trading_bot.py`'s `safe_api_call` (lines 73-100):
identical shape, but exhausting the retries prints and returns `None`
instead of raising. -/
def botAttemptLoop {α : Type} (env : Nat → AttemptOutcome α) :
    Nat → Nat → Nat → Option α × Nat × Nat
  | attempt, 0, sleeps => (none, attempt, sleeps)
  | attempt, remaining + 1, sleeps =>
    match env attempt with
    | .ok resp => (some resp, attempt + 1, sleeps)
    | .timeout =>
      if remaining = 0 then (none, attempt + 1, sleeps)
      else botAttemptLoop env (attempt + 1) remaining (sleeps + 1)
    | .exn _ =>
      if remaining = 0 then (none, attempt + 1, sleeps)
      else botAttemptLoop env (attempt + 1) remaining (sleeps + 1)

structure BotCallResult (α : Type) where
  result : Option α
  calls : Nat
  sleeps : Nat
  params : List (String × String)

/-- Embedding of `trading_bot.py`'s `safe_api_call` (lines 63-100): no
credential precondition; inject `timestamp`, sign, append `signature`,
then retry. -/
def bot_safe_api_call {α : Type} (cred : Credential) (now : Nat)
    (env : Nat → AttemptOutcome α) (params0 : Option (List (String × String))) :
    BotCallResult α :=
  let p := params0.getD []
  let p1 := dictInsert p "timestamp" (toString now)
  let p2 := dictInsert p1 "signature" (sign_request p1 cred.api_secret)
  let r := botAttemptLoop env 0 MAX_RETRIES 0
  ⟨r.1, r.2.1, r.2.2, p2⟩

/-! ## Exchange response shapes and position normalization

Raw JSON records are embedded with `Option` fields: `none` models a
missing key, so `p.get(key, default)` is `(field).getD default`.
Python floats are idealised as `ℚ`. -/

structure RawPosition where
  symbol : String
  positionSide : Option String
  positionAmt : Option ℚ
  entryPrice : Option ℚ
  markPrice : Option ℚ
  currentPrice : Option ℚ
  unrealizedProfit : Option ℚ
  leverage : Option ℚ
  margin : Option ℚ
deriving DecidableEq

/-- The JSON envelope `{"code": ..., "data": ...}` of every endpoint. -/
structure ApiResp (γ : Type) where
  code : Int
  data : γ
deriving DecidableEq

inductive Side where
  | LONG
  | SHORT
deriving DecidableEq

/-- Python's `str.upper()` on ASCII data: uppercase every character.
Stated over the character list (rather than core's `String.toUpper`,
which is definitionally opaque) so that concrete inputs evaluate. -/
def strUpper (s : String) : String := String.mk (s.toList.map Char.toUpper)

/-- Side derivation of `app.py` (`fetch_perpetual_positions` lines 245-246
and `fetch_standard_positions` lines 275-276):
`side = "LONG" if pos.get('positionSide', '').upper() == "LONG" else "SHORT"`. -/
def app_derive_side (pos : RawPosition) : Side :=
  let pos_side := strUpper (pos.positionSide.getD "")
  if pos_side = "LONG" then .LONG else .SHORT

/-- Side derivation of `trading_bot.py` (`get_swap_positions` lines
181-188, same in `get_standard_futures_positions`): explicit
`positionSide` when it is LONG or SHORT, otherwise the sign of
`positionAmt` (positive means LONG, else SHORT). -/
def bot_derive_side (pos : RawPosition) : Side :=
  let pos_side := strUpper (pos.positionSide.getD "")
  if pos_side = "LONG" then .LONG
  else if pos_side = "SHORT" then .SHORT
  else if pos.positionAmt.getD 0 > 0 then .LONG else .SHORT

structure AppPosition where
  symbol : String
  side : Side
  amount : ℚ
  entry_price : ℚ
  current_price : ℚ
  pnl : ℚ
  leverage : ℚ
  margin : ℚ
deriving DecidableEq

def toAppPerpPosition (pos : RawPosition) : AppPosition :=
  ⟨pos.symbol, app_derive_side pos, pos.positionAmt.getD 0, pos.entryPrice.getD 0,
   pos.markPrice.getD 0, pos.unrealizedProfit.getD 0, pos.leverage.getD 1, pos.margin.getD 0⟩

def toAppStdPosition (pos : RawPosition) : AppPosition :=
  ⟨pos.symbol, app_derive_side pos, pos.positionAmt.getD 0, pos.entryPrice.getD 0,
   pos.currentPrice.getD 0, pos.unrealizedProfit.getD 0, pos.leverage.getD 1, pos.margin.getD 0⟩

/-- `[p for p in positions_list if float(p.get('positionAmt', 0)) != 0]`. -/
def openOnly (l : List RawPosition) : List RawPosition :=
  l.filter fun p => decide (p.positionAmt.getD 0 ≠ 0)

structure PositionsResult where
  positions : List AppPosition
  count : Nat
deriving DecidableEq

/-- Embedding of `app.py`'s `fetch_perpetual_positions` (lines 231-259):
a raised transport error propagates; an application error (`code != 0`)
degrades to an empty result; otherwise zero-quantity entries are
filtered out and the rest normalized. -/
def fetch_perpetual_positions (cred : Credential) (now : Nat)
    (env : Nat → AttemptOutcome (ApiResp (List RawPosition))) :
    Except ApiError PositionsResult :=
  match (safe_api_call cred now env none).result with
  | .error e => .error e
  | .ok none => .ok ⟨[], 0⟩
  | .ok (some resp) =>
    if resp.code ≠ 0 then .ok ⟨[], 0⟩
    else
      let positions := (openOnly resp.data).map toAppPerpPosition
      .ok ⟨positions, positions.length⟩

/-- Embedding of `app.py`'s `fetch_standard_positions` (lines 261-289). -/
def fetch_standard_positions (cred : Credential) (now : Nat)
    (env : Nat → AttemptOutcome (ApiResp (List RawPosition))) :
    Except ApiError PositionsResult :=
  match (safe_api_call cred now env none).result with
  | .error e => .error e
  | .ok none => .ok ⟨[], 0⟩
  | .ok (some resp) =>
    if resp.code ≠ 0 then .ok ⟨[], 0⟩
    else
      let positions := (openOnly resp.data).map toAppStdPosition
      .ok ⟨positions, positions.length⟩

structure PerpBalanceRaw where
  balance : Option ℚ
  availableMargin : Option ℚ
  unrealizedProfit : Option ℚ
deriving DecidableEq

structure StdBalanceRaw where
  balance : Option ℚ
  available : Option ℚ
  unrealizedProfit : Option ℚ
deriving DecidableEq

structure BalanceTriple where
  balance : ℚ
  available : ℚ
  pnl : ℚ
deriving DecidableEq

/-- Embedding of `app.py`'s `fetch_perpetual_balance` (lines 191-207):
the perpetual response nests the balance under `data.balance`. -/
def fetch_perpetual_balance (cred : Credential) (now : Nat)
    (env : Nat → AttemptOutcome (ApiResp (Option PerpBalanceRaw))) :
    Except ApiError (Option BalanceTriple) :=
  match (safe_api_call cred now env none).result with
  | .error e => .error e
  | .ok none => .ok none
  | .ok (some resp) =>
    if resp.code ≠ 0 then .ok none
    else
      let b := resp.data.getD ⟨none, none, none⟩
      .ok (some ⟨b.balance.getD 0, b.availableMargin.getD 0, b.unrealizedProfit.getD 0⟩)

/-- Embedding of `app.py`'s `fetch_standard_balance` (lines 209-229):
the standard response returns a list whose first element is the balance. -/
def fetch_standard_balance (cred : Credential) (now : Nat)
    (env : Nat → AttemptOutcome (ApiResp (List StdBalanceRaw))) :
    Except ApiError (Option BalanceTriple) :=
  match (safe_api_call cred now env none).result with
  | .error e => .error e
  | .ok none => .ok none
  | .ok (some resp) =>
    if resp.code ≠ 0 then .ok none
    else
      let b := resp.data.headD ⟨none, none, none⟩
      .ok (some ⟨b.balance.getD 0, b.available.getD 0, b.unrealizedProfit.getD 0⟩)

/-! ## `app.py` statistics aggregation (`get_stats_summary`, lines 325-379) -/

structure SymAgg where
  pnl : ℚ
  positions : Nat
  long : Nat
  short : Nat
deriving DecidableEq

def bumpSym (agg : SymAgg) (p : AppPosition) : SymAgg :=
  ⟨agg.pnl + p.pnl, agg.positions + 1,
   if p.side = .LONG then agg.long + 1 else agg.long,
   if p.side = .LONG then agg.short else agg.short + 1⟩

/-- One step of the `symbols_agg` loop: update the entry for `p.symbol`
in place, or append a fresh one (Python dict insertion order). -/
def updateSymbols (m : List (String × SymAgg)) (p : AppPosition) : List (String × SymAgg) :=
  match m with
  | [] => [(p.symbol, bumpSym ⟨0, 0, 0, 0⟩ p)]
  | (s, agg) :: rest =>
    if s = p.symbol then (s, bumpSym agg p) :: rest
    else (s, agg) :: updateSymbols rest p

def symbolsAgg (l : List AppPosition) : List (String × SymAgg) := l.foldl updateSymbols []

structure Summary where
  total_pnl : ℚ
  total_positions : Nat
  perpetual_pnl : ℚ
  standard_pnl : ℚ
  winning_count : Nat
  losing_count : Nat
  win_rate : ℚ
  total_margin : ℚ
  perpetual_balance : ℚ
  standard_balance : ℚ
  total_balance : ℚ
  symbols : List (String × SymAgg)
deriving DecidableEq

/-- The summary dictionary built by `get_stats_summary` from the four
fetch results.  `win_rate` is the exact percentage
`winning / len(all_positions) * 100` (the source formats this value with
one decimal for display) and `0` when there are no positions, mirroring
the `if all_positions else "0%"` guard. -/
def buildSummary (perp std : PositionsResult) (perpBal stdBal : Option BalanceTriple) :
    Summary :=
  let all_positions := perp.positions ++ std.positions
  let winning := (all_positions.map fun p => if p.pnl > 0 then (1 : Nat) else 0).sum
  let losing := (all_positions.map fun p => if p.pnl < 0 then (1 : Nat) else 0).sum
  let perp_balance := match perpBal with
    | some b => b.balance
    | none => 0
  let std_balance := match stdBal with
    | some b => b.balance
    | none => 0
  ⟨(all_positions.map AppPosition.pnl).sum, all_positions.length,
   (perp.positions.map AppPosition.pnl).sum, (std.positions.map AppPosition.pnl).sum,
   winning, losing,
   if all_positions = [] then 0 else (winning : ℚ) / (all_positions.length : ℚ) * 100,
   (all_positions.map AppPosition.margin).sum,
   perp_balance, std_balance, perp_balance + std_balance,
   symbolsAgg all_positions⟩

/-- The `except Exception` handler of `get_stats_summary` re-raises any
exception (including HTTPExceptions from `safe_api_call`) as a 500. -/
inductive StatsError where
  | internal
deriving DecidableEq

structure StatsEnv where
  perpPos : Nat → AttemptOutcome (ApiResp (List RawPosition))
  stdPos : Nat → AttemptOutcome (ApiResp (List RawPosition))
  perpBal : Nat → AttemptOutcome (ApiResp (Option PerpBalanceRaw))
  stdBal : Nat → AttemptOutcome (ApiResp (List StdBalanceRaw))

/-- Embedding of `app.py`'s `get_stats_summary` (lines 325-379): fetch
both position lists and both balances, build the summary; any error
raised by a fetch is caught by the surrounding `try` and re-raised as a
500, aborting the aggregation. -/
def get_stats_summary (cred : Credential) (now : Nat) (env : StatsEnv) :
    Except StatsError Summary :=
  match fetch_perpetual_positions cred now env.perpPos with
  | .error _ => .error .internal
  | .ok perp =>
    match fetch_standard_positions cred now env.stdPos with
    | .error _ => .error .internal
    | .ok std =>
      match fetch_perpetual_balance cred now env.perpBal with
      | .error _ => .error .internal
      | .ok perpBal =>
        match fetch_standard_balance cred now env.stdBal with
        | .error _ => .error .internal
        | .ok stdBal => .ok (buildSummary perp std perpBal stdBal)

/-! ## `trading_bot.py` report (`generate_report` and its helpers) -/

/-- Embedding of `get_swap_balance` (lines 114-144): `None` on a failed
or empty response, otherwise the raw balance record. -/
def get_swap_balance (cred : Credential) (now : Nat)
    (env : Nat → AttemptOutcome (ApiResp (Option PerpBalanceRaw))) :
    Option PerpBalanceRaw :=
  match (bot_safe_api_call cred now env none).result with
  | none => none
  | some resp => if resp.code ≠ 0 then none else resp.data

/-- Embedding of `get_swap_positions` (lines 146-198): returns the
number of open (non-zero quantity) positions; any failure yields 0. -/
def get_swap_positions (cred : Credential) (now : Nat)
    (env : Nat → AttemptOutcome (ApiResp (List RawPosition))) : Nat :=
  match (bot_safe_api_call cred now env none).result with
  | none => 0
  | some resp => if resp.code ≠ 0 then 0 else (openOnly resp.data).length

/-- Embedding of `get_standard_futures_balance` (lines 204-239). -/
def get_standard_futures_balance (cred : Credential) (now : Nat)
    (env : Nat → AttemptOutcome (ApiResp (List StdBalanceRaw))) :
    Option StdBalanceRaw :=
  match (bot_safe_api_call cred now env none).result with
  | none => none
  | some resp => if resp.code ≠ 0 then none else resp.data.head?

/-- Embedding of `get_standard_futures_positions` (lines 241-293). -/
def get_standard_futures_positions (cred : Credential) (now : Nat)
    (env : Nat → AttemptOutcome (ApiResp (List RawPosition))) : Nat :=
  match (bot_safe_api_call cred now env none).result with
  | none => 0
  | some resp => if resp.code ≠ 0 then 0 else (openOnly resp.data).length

structure ReportTotals where
  total_balance : ℚ
  total_available : ℚ
  total_pnl : ℚ
  total_positions : Nat
deriving DecidableEq

structure ReportEnv where
  perpBal : Nat → AttemptOutcome (ApiResp (Option PerpBalanceRaw))
  perpPos : Nat → AttemptOutcome (ApiResp (List RawPosition))
  stdBal : Nat → AttemptOutcome (ApiResp (List StdBalanceRaw))
  stdPos : Nat → AttemptOutcome (ApiResp (List RawPosition))

/-- Embedding of `trading_bot.py`'s `generate_report` (lines 346-395):
abort only when the credential is missing; otherwise fetch both account
types and sum the portfolio totals, each `if swap_balance:` /
`if std_balance:` guard turning an absent balance into zero
contributions. -/
def generate_report (cred : Credential) (now : Nat) (env : ReportEnv) :
    Option ReportTotals :=
  if cred.api_key = "" ∨ cred.api_secret = "" then none
  else
    let swap_balance := get_swap_balance cred now env.perpBal
    let perp_positions := get_swap_positions cred now env.perpPos
    let std_balance := get_standard_futures_balance cred now env.stdBal
    let std_positions := get_standard_futures_positions cred now env.stdPos
    let swapPart : ℚ × ℚ × ℚ := match swap_balance with
      | some b => (b.balance.getD 0, b.availableMargin.getD 0, b.unrealizedProfit.getD 0)
      | none => (0, 0, 0)
    let stdPart : ℚ × ℚ × ℚ := match std_balance with
      | some b => (b.balance.getD 0, b.available.getD 0, b.unrealizedProfit.getD 0)
      | none => (0, 0, 0)
    some ⟨swapPart.1 + stdPart.1, swapPart.2.1 + stdPart.2.1,
          swapPart.2.2 + stdPart.2.2, perp_positions + std_positions⟩

/-! ## `app.py` credential configuration (`configure_keys`, lines 153-170) -/

structure APIKeys where
  api_key : String
  api_secret : String
deriving DecidableEq

inductive ConfigResult where
  | badRequest
  | success
  | invalidKeys
  | connectionError
deriving DecidableEq

/-- Embedding of `configure_keys`: reject empty keys with a 400, store
the supplied pair in the process-wide `current_keys`, then test the
connection with a balance call under the new credential; a validation
failure only changes the returned message, never the stored keys. -/
def configure_keys (keys : APIKeys) (st : Credential) (now : Nat)
    (env : Nat → AttemptOutcome (ApiResp (Option PerpBalanceRaw))) :
    Credential × ConfigResult :=
  if keys.api_key = "" ∨ keys.api_secret = "" then (st, .badRequest)
  else
    let st' : Credential := ⟨keys.api_key, keys.api_secret⟩
    match (safe_api_call st' now env none).result with
    | .error _ => (st', .connectionError)
    | .ok none => (st', .invalidKeys)
    | .ok (some resp) => if resp.code = 0 then (st', .success) else (st', .invalidKeys)

/-! ## Signal Evaluator -/

structure PriceBar where
  close : ℚ
  timestamp : Option Int
deriving DecidableEq

structure IndicatorSnapshot where
  lowerBand : ℚ
  upperBand : ℚ
  rsi : ℚ
deriving DecidableEq

inductive Signal where
  | BUY
  | SELL
  | HOLD
deriving DecidableEq

/-- Modelled from the spec: the Signal Evaluator's `evaluate` function is
specified (§4.4) but its code is not among the provided source files
(`app.py`, `trading_bot.py` contain no indicator or signal code).
Faithful to the spec's words: fewer than 21 bars (including an empty
series) returns HOLD unconditionally; otherwise BUY iff the latest close
is below the lower band and RSI < 35, SELL iff the latest close is above
the upper band and RSI > 65, and HOLD in every other case. -/
def evaluate (bars : List PriceBar) (snap : IndicatorSnapshot) : Signal :=
  if bars.length < 21 then .HOLD
  else
    match bars.getLast? with
    | none => .HOLD
    | some bar =>
      if bar.close < snap.lowerBand ∧ snap.rsi < 35 then .BUY
      else if bar.close > snap.upperBand ∧ snap.rsi > 65 then .SELL
      else .HOLD

/-- A network environment whose every attempt immediately returns the
same parsed body. -/
def okEnv {γ : Type} (resp : γ) : Nat → AttemptOutcome γ := fun _ => .ok resp

/-! ## Dictionary lemmas -/

theorem dictGet_eq_some_of_mem {p : List (String × String)} (hn : (p.map Prod.fst).Nodup)
    {k v : String} (h : (k, v) ∈ p) : dictGet p k = some v := by
  induction p with
  | nil => simp at h
  | cons hd tl ih =>
    obtain ⟨k', v'⟩ := hd
    rw [List.map_cons, List.nodup_cons] at hn
    rcases List.mem_cons.mp h with h | h
    · rw [Prod.mk.injEq] at h
      simp [dictGet, h.1.symm, h.2]
    · have hk : ¬ k' = k := by
        intro e
        exact hn.1 (e ▸ (List.mem_map.mpr ⟨(k, v), h, rfl⟩))
      simp [dictGet, hk, ih hn.2 h]

theorem dictGet_eq_none_iff {p : List (String × String)} {k : String} :
    dictGet p k = none ↔ k ∉ p.map Prod.fst := by
  induction p with
  | nil => simp [dictGet]
  | cons hd tl ih =>
    obtain ⟨k', v'⟩ := hd
    by_cases h : k' = k
    · simp [dictGet, h]
    · simp [dictGet, h, ih, Ne.symm h]

theorem mem_of_dictGet_eq_some {p : List (String × String)} {k v : String}
    (h : dictGet p k = some v) : (k, v) ∈ p := by
  induction p with
  | nil => simp [dictGet] at h
  | cons hd tl ih =>
    obtain ⟨k', v'⟩ := hd
    by_cases hk : k' = k
    · rw [dictGet, if_pos hk] at h
      exact List.mem_cons.mpr (Or.inl (by rw [hk.symm, Option.some_inj.mp h]))
    · rw [dictGet, if_neg hk] at h
      exact List.mem_cons.mpr (Or.inr (ih h))

theorem perm_dictGet {p₁ p₂ : List (String × String)} (hp : p₁.Perm p₂)
    (hn : (p₁.map Prod.fst).Nodup) (k : String) : dictGet p₁ k = dictGet p₂ k := by
  have hn₂ : (p₂.map Prod.fst).Nodup := ((hp.map Prod.fst).nodup_iff).mp hn
  cases h : dictGet p₁ k with
  | some v =>
    exact (dictGet_eq_some_of_mem hn₂ (hp.mem_iff.mp (mem_of_dictGet_eq_some h))).symm
  | none =>
    refine (dictGet_eq_none_iff.mpr ?_).symm
    intro hmem
    exact dictGet_eq_none_iff.mp h ((hp.map Prod.fst).mem_iff.mpr hmem)

theorem sortedKeys_perm_eq {p₁ p₂ : List (String × String)} (hp : p₁.Perm p₂) :
    sortedKeys p₁ = sortedKeys p₂ := by
  have htrans : ∀ a b c : String, (fun a b : String => (a ≤ b : Bool)) a b →
      (fun a b : String => (a ≤ b : Bool)) b c → (fun a b : String => (a ≤ b : Bool)) a c := by
    intro a b c hab hbc
    simp only [decide_eq_true_eq] at hab hbc ⊢
    exact le_trans hab hbc
  have htotal : ∀ a b : String, ((fun a b : String => (a ≤ b : Bool)) a b ||
      (fun a b : String => (a ≤ b : Bool)) b a) := by
    intro a b
    simp only [Bool.or_eq_true, decide_eq_true_eq]
    exact le_total a b
  have hs₁ := List.sorted_mergeSort htrans htotal (p₁.map Prod.fst)
  have hs₂ := List.sorted_mergeSort htrans htotal (p₂.map Prod.fst)
  have hperm : (sortedKeys p₁).Perm (sortedKeys p₂) :=
    (List.mergeSort_perm _ _).trans ((hp.map Prod.fst).trans (List.mergeSort_perm _ _).symm)
  have hs₁' : (sortedKeys p₁).Sorted (fun a b : String => a ≤ b) :=
    hs₁.imp fun h => by simpa using h
  have hs₂' : (sortedKeys p₂).Sorted (fun a b : String => a ≤ b) :=
    hs₂.imp fun h => by simpa using h
  exact List.eq_of_perm_of_sorted hperm hs₁' hs₂'

theorem canonicalQuery_perm_eq {p₁ p₂ : List (String × String)} (hp : p₁.Perm p₂)
    (hn : (p₁.map Prod.fst).Nodup) : canonicalQuery p₁ = canonicalQuery p₂ := by
  unfold canonicalQuery
  rw [sortedKeys_perm_eq hp]
  have : (fun k => k ++ "=" ++ ((dictGet p₁ k).getD "")) =
      (fun k => k ++ "=" ++ ((dictGet p₂ k).getD "")) :=
    funext fun k => by rw [perm_dictGet hp hn k]
  rw [this]

/-- Claim C1: `sign_request` returns the hex-encoded HMAC-SHA256, keyed by
the secret, of the `key=value` pairs joined by `&` in lexicographically
sorted key order; hence any two parameter mappings equal as key-value sets
(differing only in insertion order) yield the identical signature under
the same secret. -/
theorem sign_request_canonical (p₁ p₂ : List (String × String)) (secret : String)
    (hp : p₁.Perm p₂) (hn : (p₁.map Prod.fst).Nodup) :
    sign_request p₁ secret =
      hexDigest (hmacSha256 (utf8Encode secret) (utf8Encode (canonicalQuery p₁))) ∧
    sign_request p₁ secret = sign_request p₂ secret := by
  constructor
  · rfl
  · show hexDigest (hmacSha256 (utf8Encode secret) (utf8Encode (canonicalQuery p₁))) =
      hexDigest (hmacSha256 (utf8Encode secret) (utf8Encode (canonicalQuery p₂)))
    rw [canonicalQuery_perm_eq hp hn]

/-- Witness for C1 at two concrete two-key dicts differing only in
insertion order. -/
theorem sign_request_canonical_witness :
    ([("b", "2"), ("a", "1")] : List (String × String)).Perm [("a", "1"), ("b", "2")] ∧
    (([("b", "2"), ("a", "1")] : List (String × String)).map Prod.fst).Nodup ∧
    sign_request [("b", "2"), ("a", "1")] "s" = sign_request [("a", "1"), ("b", "2")] "s" :=
  ⟨.swap _ _ _, by decide,
   (sign_request_canonical [("b", "2"), ("a", "1")] [("a", "1"), ("b", "2")] "s"
     (.swap _ _ _) (by decide)).2⟩

/-- Claim C8: for every bar sequence of length less than 21 (including
the empty sequence), the Signal Evaluator's `evaluate` returns HOLD
unconditionally. -/
theorem evaluate_insufficient_history (bars : List PriceBar) (snap : IndicatorSnapshot)
    (h : bars.length < 21) : evaluate bars snap = .HOLD := by
  simp [evaluate, h]

/-- Witness for C8 at the empty bar sequence. -/
theorem evaluate_insufficient_history_witness :
    ([] : List PriceBar).length < 21 ∧
    evaluate [] ⟨0, 0, 50⟩ = .HOLD :=
  ⟨by decide, evaluate_insufficient_history [] ⟨0, 0, 50⟩ (by decide)⟩

/-- Claim C9: after a POST to `/api/config` with a non-empty key pair,
the process-wide credential equals the supplied pair whatever the
subsequent validation call does (timeout, transport error, invalid-key
response, success); the previous credential is never restored. -/
theorem configure_keys_replaces_credential (keys : APIKeys) (st : Credential) (now : Nat)
    (env : Nat → AttemptOutcome (ApiResp (Option PerpBalanceRaw)))
    (hk : keys.api_key ≠ "") (hs : keys.api_secret ≠ "") :
    (configure_keys keys st now env).1 = ⟨keys.api_key, keys.api_secret⟩ := by
  unfold configure_keys
  rw [if_neg (by
    intro h
    rcases h with h | h
    · exact hk h
    · exact hs h)]
  dsimp only
  split
  · rfl
  · rfl
  · split
    · rfl
    · rfl

/-- Witness for C9: a fresh key pair replaces the old credential even
though the validation call times out on every attempt. -/
theorem configure_keys_replaces_credential_witness :
    (⟨"k", "s"⟩ : APIKeys).api_key ≠ "" ∧ (⟨"k", "s"⟩ : APIKeys).api_secret ≠ "" ∧
    (configure_keys ⟨"k", "s"⟩ ⟨"oldk", "olds"⟩ 0
      (fun _ => AttemptOutcome.timeout)).1 = ⟨"k", "s"⟩ :=
  ⟨by decide, by decide,
   configure_keys_replaces_credential ⟨"k", "s"⟩ ⟨"oldk", "olds"⟩ 0
     (fun _ => AttemptOutcome.timeout) (by decide) (by decide)⟩

/-- Claim C3: with an incomplete credential (empty key or secret) every
call fails immediately with the Unauthenticated error (HTTPException
401) and zero network attempts are made. -/
theorem safe_api_call_unauthenticated {α : Type} (cred : Credential) (now : Nat)
    (env : Nat → AttemptOutcome α) (params0 : Option (List (String × String)))
    (h : cred.api_key = "" ∨ cred.api_secret = "") :
    (safe_api_call cred now env params0).result = .error .unauthenticated ∧
    (safe_api_call cred now env params0).calls = 0 := by
  unfold safe_api_call
  rw [if_pos h]
  exact ⟨rfl, rfl⟩

/-- Witness for C3: an empty api key rejects the call with zero attempts
even though the network would answer successfully. -/
theorem safe_api_call_unauthenticated_witness :
    ((⟨"", "s"⟩ : Credential).api_key = "" ∨ (⟨"", "s"⟩ : Credential).api_secret = "") ∧
    ((safe_api_call ⟨"", "s"⟩ 0 (fun _ => AttemptOutcome.ok (0 : Nat)) none).result =
        .error .unauthenticated ∧
      (safe_api_call ⟨"", "s"⟩ 0 (fun _ => AttemptOutcome.ok (0 : Nat)) none).calls = 0) :=
  ⟨Or.inl rfl,
   safe_api_call_unauthenticated ⟨"", "s"⟩ 0 (fun _ => AttemptOutcome.ok (0 : Nat)) none
     (Or.inl rfl)⟩

theorem dictGet_dictInsert (p : List (String × String)) (k v : String) :
    dictGet (dictInsert p k v) k = some v := by
  induction p with
  | nil => simp [dictInsert, dictGet]
  | cons hd tl ih =>
    obtain ⟨k', v'⟩ := hd
    by_cases h : k' = k
    · simp [dictInsert, dictGet, h]
    · simp [dictInsert, dictGet, h, ih]

theorem dictGet_dictInsert_ne (p : List (String × String)) (k v k' : String) (h : k ≠ k') :
    dictGet (dictInsert p k v) k' = dictGet p k' := by
  induction p with
  | nil => simp [dictInsert, dictGet, h]
  | cons hd tl ih =>
    obtain ⟨k₀, v₀⟩ := hd
    by_cases h₀ : k₀ = k
    · simp [dictInsert, dictGet, h₀, h]
    · by_cases h₁ : k₀ = k'
      · simp [dictInsert, dictGet, h₀, h₁, Ne.symm h]
      · simp [dictInsert, dictGet, h₀, h₁, ih]

/-- Claim C10: any call to either `safe_api_call` with a caller-supplied
parameter dict leaves the dict containing a `timestamp` key holding the
injected timestamp and a `signature` key holding the signature of the
timestamped parameters, overwriting whatever the caller had stored under
those keys (the `app.py` client reaches the mutation whenever the
credential check passes; the `trading_bot.py` client mutates
unconditionally). -/
theorem safe_api_call_mutates_params {α β : Type} (cred : Credential) (now : Nat)
    (env : Nat → AttemptOutcome α) (benv : Nat → AttemptOutcome β)
    (p q : List (String × String))
    (hk : cred.api_key ≠ "") (hs : cred.api_secret ≠ "") :
    (dictGet (safe_api_call cred now env (some p)).params "timestamp" = some (toString now) ∧
     dictGet (safe_api_call cred now env (some p)).params "signature" =
       some (sign_request (dictInsert p "timestamp" (toString now)) cred.api_secret)) ∧
    (dictGet (bot_safe_api_call cred now benv (some q)).params "timestamp" = some (toString now) ∧
     dictGet (bot_safe_api_call cred now benv (some q)).params "signature" =
       some (sign_request (dictInsert q "timestamp" (toString now)) cred.api_secret)) := by
  have hne : "signature" ≠ "timestamp" := by decide
  have happ : (safe_api_call cred now env (some p)).params =
      dictInsert (dictInsert p "timestamp" (toString now)) "signature"
        (sign_request (dictInsert p "timestamp" (toString now)) cred.api_secret) := by
    unfold safe_api_call
    rw [if_neg (by
      intro h
      rcases h with h | h
      · exact hk h
      · exact hs h)]
    rfl
  have hbot : (bot_safe_api_call cred now benv (some q)).params =
      dictInsert (dictInsert q "timestamp" (toString now)) "signature"
        (sign_request (dictInsert q "timestamp" (toString now)) cred.api_secret) := rfl
  refine ⟨⟨?_, ?_⟩, ?_, ?_⟩
  · rw [happ, dictGet_dictInsert_ne _ _ _ _ hne, dictGet_dictInsert]
  · rw [happ, dictGet_dictInsert]
  · rw [hbot, dictGet_dictInsert_ne _ _ _ _ hne, dictGet_dictInsert]
  · rw [hbot, dictGet_dictInsert]

/-- Witness for C10: both clients overwrite caller-supplied `timestamp`
and `signature` values. -/
theorem safe_api_call_mutates_params_witness :
    (⟨"k", "s"⟩ : Credential).api_key ≠ "" ∧ (⟨"k", "s"⟩ : Credential).api_secret ≠ "" ∧
    (dictGet (safe_api_call ⟨"k", "s"⟩ 7 (fun _ => AttemptOutcome.ok (0 : Nat))
        (some [("timestamp", "old"), ("signature", "old")])).params "timestamp" =
      some (toString 7) ∧
     dictGet (bot_safe_api_call ⟨"k", "s"⟩ 7 (fun _ => AttemptOutcome.ok (0 : Nat))
        (some [("x", "1")])).params "timestamp" = some (toString 7)) := by
  refine ⟨by decide, by decide, ?_, ?_⟩
  · exact (safe_api_call_mutates_params ⟨"k", "s"⟩ 7 (fun _ => AttemptOutcome.ok (0 : Nat))
      (fun _ => AttemptOutcome.ok (0 : Nat)) [("timestamp", "old"), ("signature", "old")]
      [("x", "1")] (by decide) (by decide)).1.1
  · exact (safe_api_call_mutates_params ⟨"k", "s"⟩ 7 (fun _ => AttemptOutcome.ok (0 : Nat))
      (fun _ => AttemptOutcome.ok (0 : Nat)) [("timestamp", "old"), ("signature", "old")]
      [("x", "1")] (by decide) (by decide)).2.1

/-- Claim C4, settled against the code: on a position record with no
explicit side field and strictly positive quantity, `app.py`'s side
derivation yields SHORT — it ignores the quantity sign, classifying
everything whose `positionSide` is not exactly `LONG` as SHORT — while
`trading_bot.py`'s derivation yields LONG via the documented
sign-of-quantity fallback that the claim (and §4.5 of the spec)
requires. The third conjunct shows the same divergence for a present
but empty side field. -/
theorem app_side_derivation_ignores_quantity_sign :
    app_derive_side ⟨"BTC-USDT", none, some 5, none, none, none, none, none, none⟩ = .SHORT ∧
    bot_derive_side ⟨"BTC-USDT", none, some 5, none, none, none, none, none, none⟩ = .LONG ∧
    app_derive_side ⟨"BTC-USDT", some "", some 5, none, none, none, none, none, none⟩ = .SHORT := by
  refine ⟨by decide, by decide, by decide⟩


theorem safe_api_call_authenticated {α : Type} (cred : Credential) (now : Nat)
    (env : Nat → AttemptOutcome α) (params0 : Option (List (String × String)))
    (hk : cred.api_key ≠ "") (hs : cred.api_secret ≠ "") :
    (safe_api_call cred now env params0).result = (attemptLoop env 0 3 0).1 ∧
    (safe_api_call cred now env params0).calls = (attemptLoop env 0 3 0).2.1 ∧
    (safe_api_call cred now env params0).sleeps = (attemptLoop env 0 3 0).2.2 := by
  unfold safe_api_call
  rw [if_neg (by
    intro h
    rcases h with h | h
    · exact hk h
    · exact hs h)]
  exact ⟨rfl, rfl, rfl⟩

theorem attemptLoop_all_timeout {α : Type} (env : Nat → AttemptOutcome α)
    (h0 : env 0 = .timeout) (h1 : env 1 = .timeout) (h2 : env 2 = .timeout) :
    attemptLoop env 0 3 0 = (.error .apiTimeout, 3, 2) := by
  simp [attemptLoop, h0, h1, h2]

theorem attemptLoop_all_exn {α : Type} (env : Nat → AttemptOutcome α) (m₀ m₁ m₂ : String)
    (h0 : env 0 = .exn m₀) (h1 : env 1 = .exn m₁) (h2 : env 2 = .exn m₂) :
    attemptLoop env 0 3 0 = (.error (.transportFailure ("Erreur API: " ++ m₂)), 3, 2) := by
  simp [attemptLoop, h0, h1, h2]

theorem attemptLoop_ok_first {α : Type} (env : Nat → AttemptOutcome α) (r : α)
    (h : env 0 = .ok r) : attemptLoop env 0 3 0 = (.ok (some r), 1, 0) := by
  simp [attemptLoop, h]

theorem attemptLoop_ok_second {α : Type} (env : Nat → AttemptOutcome α) (r : α)
    (hf : env 0 = .timeout ∨ ∃ m, env 0 = .exn m) (h : env 1 = .ok r) :
    attemptLoop env 0 3 0 = (.ok (some r), 2, 1) := by
  rcases hf with hf | ⟨m, hf⟩ <;> simp [attemptLoop, hf, h]

theorem attemptLoop_ok_third {α : Type} (env : Nat → AttemptOutcome α) (r : α)
    (hf0 : env 0 = .timeout ∨ ∃ m, env 0 = .exn m)
    (hf1 : env 1 = .timeout ∨ ∃ m, env 1 = .exn m) (h : env 2 = .ok r) :
    attemptLoop env 0 3 0 = (.ok (some r), 3, 2) := by
  rcases hf0 with hf0 | ⟨m0, hf0⟩ <;> rcases hf1 with hf1 | ⟨m1, hf1⟩ <;>
    simp [attemptLoop, hf0, hf1, h]

/-- Claim C2: when every attempt fails, `app.py`'s client makes exactly
3 attempts separated by two one-second sleeps and surfaces the typed
error — 504 for repeated timeouts, 502 carrying the last exception's
message for other repeated exceptions; when some earlier attempt
succeeds, the payload is returned with no error after exactly the
attempts and sleeps used so far. -/
theorem safe_api_call_retry_discipline {α : Type} (cred : Credential) (now : Nat)
    (env : Nat → AttemptOutcome α)
    (hk : cred.api_key ≠ "") (hs : cred.api_secret ≠ "") :
    ((∀ i, i < 3 → env i = .timeout) →
      (safe_api_call cred now env none).result = .error .apiTimeout ∧
      (safe_api_call cred now env none).calls = 3 ∧
      (safe_api_call cred now env none).sleeps = 2) ∧
    (∀ m₀ m₁ m₂, env 0 = .exn m₀ → env 1 = .exn m₁ → env 2 = .exn m₂ →
      (safe_api_call cred now env none).result =
        .error (.transportFailure ("Erreur API: " ++ m₂)) ∧
      (safe_api_call cred now env none).calls = 3 ∧
      (safe_api_call cred now env none).sleeps = 2) ∧
    (∀ k r, k < 3 → env k = .ok r →
      (∀ i, i < k → env i = .timeout ∨ ∃ m, env i = .exn m) →
      (safe_api_call cred now env none).result = .ok (some r) ∧
      (safe_api_call cred now env none).calls = k + 1 ∧
      (safe_api_call cred now env none).sleeps = k) := by
  obtain ⟨hr, hc, hsl⟩ := safe_api_call_authenticated cred now env none hk hs
  refine ⟨?_, ?_, ?_⟩
  · intro h
    rw [hr, hc, hsl, attemptLoop_all_timeout env (h 0 (by omega)) (h 1 (by omega)) (h 2 (by omega))]
    exact ⟨rfl, rfl, rfl⟩
  · intro m₀ m₁ m₂ h0 h1 h2
    rw [hr, hc, hsl, attemptLoop_all_exn env m₀ m₁ m₂ h0 h1 h2]
    exact ⟨rfl, rfl, rfl⟩
  · intro k r hk3 hok hfail
    interval_cases k
    · rw [hr, hc, hsl, attemptLoop_ok_first env r hok]
      exact ⟨rfl, rfl, rfl⟩
    · rw [hr, hc, hsl, attemptLoop_ok_second env r (hfail 0 (by omega)) hok]
      exact ⟨rfl, rfl, rfl⟩
    · rw [hr, hc, hsl, attemptLoop_ok_third env r (hfail 0 (by omega)) (hfail 1 (by omega)) hok]
      exact ⟨rfl, rfl, rfl⟩

/-- Witness for C2: three consecutive timeouts yield the 504 error
after exactly 3 attempts and 2 sleeps. -/
theorem safe_api_call_retry_discipline_witness :
    (⟨"k", "s"⟩ : Credential).api_key ≠ "" ∧ (⟨"k", "s"⟩ : Credential).api_secret ≠ "" ∧
    ((safe_api_call ⟨"k", "s"⟩ 0 (fun _ => (AttemptOutcome.timeout : AttemptOutcome Nat)) none).result =
        .error .apiTimeout ∧
      (safe_api_call ⟨"k", "s"⟩ 0 (fun _ => (AttemptOutcome.timeout : AttemptOutcome Nat)) none).calls = 3 ∧
      (safe_api_call ⟨"k", "s"⟩ 0 (fun _ => (AttemptOutcome.timeout : AttemptOutcome Nat)) none).sleeps = 2) :=
  ⟨by decide, by decide,
   (safe_api_call_retry_discipline ⟨"k", "s"⟩ 0
     (fun _ => (AttemptOutcome.timeout : AttemptOutcome Nat)) (by decide) (by decide)).1
     (fun i _ => rfl)⟩



theorem sum_ite_eq_countP {α : Type} (P : α → Prop) [DecidablePred P] (l : List α) :
    (l.map fun a => if P a then (1 : Nat) else 0).sum = l.countP fun a => decide (P a) := by
  induction l with
  | nil => rfl
  | cons a t ih => by_cases h : P a <;> simp [List.countP_cons, h, ih, Nat.add_comm]

theorem countP_sign_split (l : List AppPosition) :
    (l.countP fun p => decide (0 < p.pnl)) + (l.countP fun p => decide (p.pnl < 0)) +
      (l.countP fun p => decide (p.pnl = 0)) = l.length := by
  induction l with
  | nil => rfl
  | cons a t ih =>
    rcases lt_trichotomy a.pnl 0 with h | h | h
    · simp only [List.countP_cons, List.length_cons, decide_eq_true_eq]
      rw [if_neg (by simpa using not_lt.mpr (le_of_lt h)), if_pos (by simpa using h),
        if_neg (by simpa using h.ne)]
      omega
    · simp only [List.countP_cons, List.length_cons, decide_eq_true_eq]
      rw [if_neg (by simp [h]), if_neg (by simp [h]), if_pos (by simpa using h)]
      omega
    · simp only [List.countP_cons, List.length_cons, decide_eq_true_eq]
      rw [if_pos (by simpa using h), if_neg (by simpa using not_lt.mpr (le_of_lt h)),
        if_neg (by simpa using h.ne.symm)]
      omega

/-- Claim C7: in the portfolio summary the winning count is the number
of open positions with strictly positive PnL, the losing count the
number with strictly negative PnL, zero-PnL positions count toward
neither, and the win rate is winning over total positions (as a
percentage), exactly 0 when there are no open positions. -/
theorem buildSummary_win_stats (perp std : PositionsResult) (perpBal stdBal : Option BalanceTriple) :
    (buildSummary perp std perpBal stdBal).winning_count =
      ((perp.positions ++ std.positions).countP fun p => decide (0 < p.pnl)) ∧
    (buildSummary perp std perpBal stdBal).losing_count =
      ((perp.positions ++ std.positions).countP fun p => decide (p.pnl < 0)) ∧
    (buildSummary perp std perpBal stdBal).winning_count +
      (buildSummary perp std perpBal stdBal).losing_count +
      ((perp.positions ++ std.positions).countP fun p => decide (p.pnl = 0)) =
      (buildSummary perp std perpBal stdBal).total_positions ∧
    (perp.positions ++ std.positions ≠ [] →
      (buildSummary perp std perpBal stdBal).win_rate =
        ((buildSummary perp std perpBal stdBal).winning_count : ℚ) /
          ((buildSummary perp std perpBal stdBal).total_positions : ℚ) * 100) ∧
    (perp.positions ++ std.positions = [] →
      (buildSummary perp std perpBal stdBal).win_rate = 0 ∧
      (buildSummary perp std perpBal stdBal).total_positions = 0) := by
  have hw := sum_ite_eq_countP (fun p : AppPosition => p.pnl > 0) (perp.positions ++ std.positions)
  have hl := sum_ite_eq_countP (fun p : AppPosition => p.pnl < 0) (perp.positions ++ std.positions)
  refine ⟨?_, ?_, ?_, ?_, ?_⟩
  · simpa [buildSummary] using hw
  · simpa [buildSummary] using hl
  · simp only [buildSummary]
    rw [hw, hl]
    exact countP_sign_split (perp.positions ++ std.positions)
  · intro h
    simp only [buildSummary]
    rw [if_neg h]
  · intro h
    simp only [buildSummary]
    rw [if_pos h]
    simp [h]

/-- Witness for C7 on one winning, one losing and one zero-PnL
position. -/
theorem buildSummary_win_stats_witness :
    (([⟨"A", .LONG, 1, 0, 0, 2, 1, 0⟩] : List AppPosition) ++
       ([⟨"B", .SHORT, -1, 0, 0, -3, 1, 0⟩, ⟨"C", .LONG, 1, 0, 0, 0, 1, 0⟩] : List AppPosition) ≠ []) ∧
    (buildSummary ⟨[⟨"A", .LONG, 1, 0, 0, 2, 1, 0⟩], 1⟩
        ⟨[⟨"B", .SHORT, -1, 0, 0, -3, 1, 0⟩, ⟨"C", .LONG, 1, 0, 0, 0, 1, 0⟩], 2⟩
        none none).win_rate =
      ((buildSummary ⟨[⟨"A", .LONG, 1, 0, 0, 2, 1, 0⟩], 1⟩
        ⟨[⟨"B", .SHORT, -1, 0, 0, -3, 1, 0⟩, ⟨"C", .LONG, 1, 0, 0, 0, 1, 0⟩], 2⟩
        none none).winning_count : ℚ) /
        ((buildSummary ⟨[⟨"A", .LONG, 1, 0, 0, 2, 1, 0⟩], 1⟩
        ⟨[⟨"B", .SHORT, -1, 0, 0, -3, 1, 0⟩, ⟨"C", .LONG, 1, 0, 0, 0, 1, 0⟩], 2⟩
        none none).total_positions : ℚ) * 100 :=
  ⟨by decide,
   (buildSummary_win_stats ⟨[⟨"A", .LONG, 1, 0, 0, 2, 1, 0⟩], 1⟩
     ⟨[⟨"B", .SHORT, -1, 0, 0, -3, 1, 0⟩, ⟨"C", .LONG, 1, 0, 0, 0, 1, 0⟩], 2⟩
     none none).2.2.2.1 (by decide)⟩



theorem safe_api_call_okEnv {α : Type} (cred : Credential) (now : Nat) (r : α)
    (hk : cred.api_key ≠ "") (hs : cred.api_secret ≠ "") :
    (safe_api_call cred now (okEnv r) none).result = .ok (some r) := by
  obtain ⟨h1, _, _⟩ := safe_api_call_authenticated cred now (okEnv r) none hk hs
  rw [h1, attemptLoop_ok_first (okEnv r) r rfl]

theorem fetch_perpetual_positions_okEnv (cred : Credential) (now : Nat)
    (resp : ApiResp (List RawPosition)) (hk : cred.api_key ≠ "") (hs : cred.api_secret ≠ "") :
    fetch_perpetual_positions cred now (okEnv resp) =
      (if resp.code ≠ 0 then .ok ⟨[], 0⟩
       else .ok ⟨(openOnly resp.data).map toAppPerpPosition,
                 ((openOnly resp.data).map toAppPerpPosition).length⟩) := by
  unfold fetch_perpetual_positions
  rw [safe_api_call_okEnv cred now resp hk hs]

theorem fetch_standard_positions_okEnv (cred : Credential) (now : Nat)
    (resp : ApiResp (List RawPosition)) (hk : cred.api_key ≠ "") (hs : cred.api_secret ≠ "") :
    fetch_standard_positions cred now (okEnv resp) =
      (if resp.code ≠ 0 then .ok ⟨[], 0⟩
       else .ok ⟨(openOnly resp.data).map toAppStdPosition,
                 ((openOnly resp.data).map toAppStdPosition).length⟩) := by
  unfold fetch_standard_positions
  rw [safe_api_call_okEnv cred now resp hk hs]

theorem bot_safe_api_call_okEnv {α : Type} (cred : Credential) (now : Nat) (r : α) :
    (bot_safe_api_call cred now (okEnv r) none).result = some r := rfl

theorem get_swap_positions_okEnv (cred : Credential) (now : Nat)
    (resp : ApiResp (List RawPosition)) :
    get_swap_positions cred now (okEnv resp) =
      (if resp.code ≠ 0 then 0 else (openOnly resp.data).length) := by
  unfold get_swap_positions
  rw [bot_safe_api_call_okEnv]

theorem openOnly_drop_zero (z : RawPosition) (hz : z.positionAmt.getD 0 = 0)
    (l₁ l₂ : List RawPosition) :
    openOnly (l₁ ++ z :: l₂) = openOnly (l₁ ++ l₂) := by
  simp [openOnly, List.filter_append, List.filter_cons, hz]

theorem mem_openOnly_ne_zero {l : List RawPosition} {p : RawPosition}
    (h : p ∈ openOnly l) : p.positionAmt.getD 0 ≠ 0 := by
  have := (List.mem_filter.mp h).2
  simpa using this

/-- Claim C6: a raw position entry with zero quantity is excluded before
side derivation and aggregation — removing it from the exchange payload
changes neither fetch result, every position either fetch returns has
non-zero quantity, the whole statistics summary is unchanged, and the
bot's open-position count is unchanged as well. -/
theorem zero_quantity_excluded (cred : Credential) (now : Nat)
    (hk : cred.api_key ≠ "") (hs : cred.api_secret ≠ "")
    (z : RawPosition) (hz : z.positionAmt.getD 0 = 0)
    (l₁ l₂ : List RawPosition) (code : Int)
    (stdEnv : Nat → AttemptOutcome (ApiResp (List RawPosition)))
    (pbEnv : Nat → AttemptOutcome (ApiResp (Option PerpBalanceRaw)))
    (sbEnv : Nat → AttemptOutcome (ApiResp (List StdBalanceRaw))) :
    fetch_perpetual_positions cred now (okEnv ⟨code, l₁ ++ z :: l₂⟩) =
      fetch_perpetual_positions cred now (okEnv ⟨code, l₁ ++ l₂⟩) ∧
    fetch_standard_positions cred now (okEnv ⟨code, l₁ ++ z :: l₂⟩) =
      fetch_standard_positions cred now (okEnv ⟨code, l₁ ++ l₂⟩) ∧
    (∀ res, fetch_perpetual_positions cred now (okEnv ⟨code, l₁ ++ z :: l₂⟩) = .ok res →
      ∀ q ∈ res.positions, q.amount ≠ 0) ∧
    get_stats_summary cred now ⟨okEnv ⟨code, l₁ ++ z :: l₂⟩, stdEnv, pbEnv, sbEnv⟩ =
      get_stats_summary cred now ⟨okEnv ⟨code, l₁ ++ l₂⟩, stdEnv, pbEnv, sbEnv⟩ ∧
    get_swap_positions cred now (okEnv ⟨code, l₁ ++ z :: l₂⟩) =
      get_swap_positions cred now (okEnv ⟨code, l₁ ++ l₂⟩) := by
  have hopen := openOnly_drop_zero z hz l₁ l₂
  have hperp : fetch_perpetual_positions cred now (okEnv ⟨code, l₁ ++ z :: l₂⟩) =
      fetch_perpetual_positions cred now (okEnv ⟨code, l₁ ++ l₂⟩) := by
    rw [fetch_perpetual_positions_okEnv cred now _ hk hs,
      fetch_perpetual_positions_okEnv cred now _ hk hs]
    simp only [hopen]
  have hstd : fetch_standard_positions cred now (okEnv ⟨code, l₁ ++ z :: l₂⟩) =
      fetch_standard_positions cred now (okEnv ⟨code, l₁ ++ l₂⟩) := by
    rw [fetch_standard_positions_okEnv cred now _ hk hs,
      fetch_standard_positions_okEnv cred now _ hk hs]
    simp only [hopen]
  refine ⟨hperp, hstd, ?_, ?_, ?_⟩
  · intro res hres q hq
    rw [fetch_perpetual_positions_okEnv cred now _ hk hs] at hres
    by_cases hc : code ≠ 0
    · rw [if_pos hc] at hres
      cases hres
      simp at hq
    · rw [if_neg hc] at hres
      cases hres
      obtain ⟨p, hp, hpq⟩ := List.mem_map.mp hq
      have := mem_openOnly_ne_zero hp
      rw [← hpq]
      simpa [toAppPerpPosition] using this
  · unfold get_stats_summary
    dsimp only
    rw [hperp]
  · rw [get_swap_positions_okEnv cred now _, get_swap_positions_okEnv cred now _]
    simp only [hopen]

/-- Witness for C6: dropping a zero-quantity entry between two open
positions leaves the summary unchanged. -/
theorem zero_quantity_excluded_witness :
    ((⟨"k", "s"⟩ : Credential).api_key ≠ "" ∧ (⟨"k", "s"⟩ : Credential).api_secret ≠ "" ∧
     (⟨"Z", none, some 0, none, none, none, none, none, none⟩ : RawPosition).positionAmt.getD 0 = 0) ∧
    get_stats_summary ⟨"k", "s"⟩ 0
      ⟨okEnv ⟨0, [⟨"A", some "LONG", some 1, none, none, none, some 2, none, none⟩,
                  ⟨"Z", none, some 0, none, none, none, none, none, none⟩,
                  ⟨"B", some "SHORT", some (-1), none, none, none, some (-1), none, none⟩]⟩,
       okEnv ⟨0, []⟩, okEnv ⟨0, none⟩, okEnv ⟨0, []⟩⟩ =
    get_stats_summary ⟨"k", "s"⟩ 0
      ⟨okEnv ⟨0, [⟨"A", some "LONG", some 1, none, none, none, some 2, none, none⟩,
                  ⟨"B", some "SHORT", some (-1), none, none, none, some (-1), none, none⟩]⟩,
       okEnv ⟨0, []⟩, okEnv ⟨0, none⟩, okEnv ⟨0, []⟩⟩ :=
  ⟨⟨by decide, by decide, rfl⟩,
   (zero_quantity_excluded ⟨"k", "s"⟩ 0 (by decide) (by decide)
     ⟨"Z", none, some 0, none, none, none, none, none, none⟩ rfl
     [⟨"A", some "LONG", some 1, none, none, none, some 2, none, none⟩]
     [⟨"B", some "SHORT", some (-1), none, none, none, some (-1), none, none⟩] 0
     (okEnv ⟨0, []⟩) (okEnv ⟨0, none⟩) (okEnv ⟨0, []⟩)).2.2.2.1⟩



theorem fetch_perpetual_balance_okEnv (cred : Credential) (now : Nat)
    (resp : ApiResp (Option PerpBalanceRaw)) (hk : cred.api_key ≠ "") (hs : cred.api_secret ≠ "") :
    fetch_perpetual_balance cred now (okEnv resp) =
      (if resp.code ≠ 0 then .ok none
       else .ok (some ⟨(resp.data.getD ⟨none, none, none⟩).balance.getD 0,
                       (resp.data.getD ⟨none, none, none⟩).availableMargin.getD 0,
                       (resp.data.getD ⟨none, none, none⟩).unrealizedProfit.getD 0⟩)) := by
  unfold fetch_perpetual_balance
  rw [safe_api_call_okEnv cred now resp hk hs]

theorem fetch_standard_balance_okEnv (cred : Credential) (now : Nat)
    (resp : ApiResp (List StdBalanceRaw)) (hk : cred.api_key ≠ "") (hs : cred.api_secret ≠ "") :
    fetch_standard_balance cred now (okEnv resp) =
      (if resp.code ≠ 0 then .ok none
       else .ok (some ⟨(resp.data.headD ⟨none, none, none⟩).balance.getD 0,
                       (resp.data.headD ⟨none, none, none⟩).available.getD 0,
                       (resp.data.headD ⟨none, none, none⟩).unrealizedProfit.getD 0⟩)) := by
  unfold fetch_standard_balance
  rw [safe_api_call_okEnv cred now resp hk hs]

/-- Counterexample to claim C5 as stated: when the perpetual positions
fetch fails at the transport level (three timeouts) while every other
fetch succeeds, `app.py`'s `get_stats_summary` does not degrade — the
504 raised by `safe_api_call` is caught by its `except Exception`
handler and re-raised as a 500, aborting the whole aggregation. -/
theorem stats_summary_aborts_on_transport_failure :
    get_stats_summary ⟨"k", "s"⟩ 0
      ⟨fun _ => .timeout, okEnv ⟨0, []⟩, okEnv ⟨0, none⟩, okEnv ⟨0, []⟩⟩ = .error .internal := by
  have h := safe_api_call_authenticated (⟨"k", "s"⟩ : Credential) 0
    (fun _ => (AttemptOutcome.timeout : AttemptOutcome (ApiResp (List RawPosition)))) none
    (by decide) (by decide)
  have hres : (safe_api_call (⟨"k", "s"⟩ : Credential) 0
      (fun _ => (AttemptOutcome.timeout : AttemptOutcome (ApiResp (List RawPosition)))) none).result =
      .error .apiTimeout := by
    rw [h.1, attemptLoop_all_timeout _ rfl rfl rfl]
  have hfp : fetch_perpetual_positions ⟨"k", "s"⟩ 0
      (fun _ => AttemptOutcome.timeout) = .error .apiTimeout := by
    unfold fetch_perpetual_positions
    rw [hres]
  unfold get_stats_summary
  dsimp only
  rw [hfp]

/-- Claim C5 as amended: an application-level failure (non-zero exchange
code) of the perpetual account type does not abort `app.py`'s
aggregation — the perpetual side contributes empty positions and a zero
balance while the standard side is aggregated and reported — and
`trading_bot.py`'s report additionally tolerates transport failures the
same way, degrading the failed account type to zero contributions. -/
theorem aggregator_degrades_gracefully (cred : Credential) (now : Nat)
    (hk : cred.api_key ≠ "") (hs : cred.api_secret ≠ "")
    (cp cb : Int) (hcp : cp ≠ 0) (hcb : cb ≠ 0)
    (pl : List RawPosition) (pb : Option PerpBalanceRaw)
    (sd : List RawPosition) (b : StdBalanceRaw) (sbRest : List StdBalanceRaw) :
    (∃ s, get_stats_summary cred now
        ⟨okEnv ⟨cp, pl⟩, okEnv ⟨0, sd⟩, okEnv ⟨cb, pb⟩, okEnv ⟨0, b :: sbRest⟩⟩ = .ok s ∧
      s.perpetual_pnl = 0 ∧
      s.perpetual_balance = 0 ∧
      s.standard_balance = b.balance.getD 0 ∧
      s.total_balance = b.balance.getD 0 ∧
      s.total_positions = (openOnly sd).length ∧
      s.total_pnl = (((openOnly sd).map toAppStdPosition).map AppPosition.pnl).sum) ∧
    generate_report cred now
      ⟨fun _ => .timeout, fun _ => .timeout, okEnv ⟨0, b :: sbRest⟩, okEnv ⟨0, sd⟩⟩ =
      some ⟨b.balance.getD 0, b.available.getD 0, b.unrealizedProfit.getD 0,
            (openOnly sd).length⟩ := by
  have hcredneg : ¬(cred.api_key = "" ∨ cred.api_secret = "") := by
    intro h
    rcases h with h | h
    · exact hk h
    · exact hs h
  constructor
  · refine ⟨buildSummary ⟨[], 0⟩
      ⟨(openOnly sd).map toAppStdPosition, ((openOnly sd).map toAppStdPosition).length⟩
      none (some ⟨b.balance.getD 0, b.available.getD 0, b.unrealizedProfit.getD 0⟩), ?_, ?_, ?_, ?_, ?_, ?_, ?_⟩
    · unfold get_stats_summary
      dsimp only
      rw [fetch_perpetual_positions_okEnv cred now _ hk hs, if_pos hcp,
        fetch_standard_positions_okEnv cred now _ hk hs,
        if_neg (by simp : ¬((0 : Int) ≠ 0)),
        fetch_perpetual_balance_okEnv cred now _ hk hs, if_pos hcb,
        fetch_standard_balance_okEnv cred now _ hk hs,
        if_neg (by simp : ¬((0 : Int) ≠ 0))]
      rfl
    · simp [buildSummary]
    · simp [buildSummary]
    · simp [buildSummary]
    · simp [buildSummary]
    · simp [buildSummary]
    · simp [buildSummary]
  · have h1 : get_swap_balance cred now (fun _ => AttemptOutcome.timeout) = none := rfl
    have h2 : get_swap_positions cred now (fun _ => AttemptOutcome.timeout) = 0 := rfl
    have h3 : get_standard_futures_balance cred now (okEnv ⟨0, b :: sbRest⟩) = some b := rfl
    have h4 : get_standard_futures_positions cred now (okEnv ⟨0, sd⟩) = (openOnly sd).length := rfl
    unfold generate_report
    rw [if_neg hcredneg]
    simp only [h1, h2, h3, h4]
    simp

/-- Witness for C5 (amended): the bot report with a transport-dead
perpetual account still reports the standard account's totals. -/
theorem aggregator_degrades_gracefully_witness :
    ((⟨"k", "s"⟩ : Credential).api_key ≠ "" ∧ (⟨"k", "s"⟩ : Credential).api_secret ≠ "" ∧
     (7 : Int) ≠ 0 ∧ (9 : Int) ≠ 0) ∧
    generate_report ⟨"k", "s"⟩ 0
      ⟨fun _ => .timeout, fun _ => .timeout,
       okEnv ⟨0, [(⟨some 42, some 10, some 1⟩ : StdBalanceRaw)]⟩,
       okEnv ⟨0, [⟨"A", some "LONG", some 1, none, none, none, some 2, none, none⟩]⟩⟩ =
      some ⟨(42 : ℚ), 10, 1,
            (openOnly [⟨"A", some "LONG", some 1, none, none, none, some 2, none, none⟩]).length⟩ := by
  refine ⟨⟨by decide, by decide, by decide, by decide⟩, ?_⟩
  have h := (aggregator_degrades_gracefully ⟨"k", "s"⟩ 0 (by decide) (by decide) 7 9
    (by decide) (by decide) [] none
    [⟨"A", some "LONG", some 1, none, none, none, some 2, none, none⟩]
    ⟨some 42, some 10, some 1⟩ []).2
  simpa using h


end BingX
